import Mathlib

/-!
Peripheral poller of `AP-Node-Isolate/mymain.h`.

A shallow embedding of the two entry points `MySetup` and `MyLoop` together
with the three globals they share.  Every call into the Arduino platform is
recorded, in program order, as a `Call`; the values the platform hands back
(`millis()`, `analogRead`, `touchRead`) are inputs of the embedding.  The
effect of the recorded calls on the board (pin modes, output latches, console
text) is given by `Board.step`.
-/

namespace MyMain

/-! GPIO definitions -/

/-- `#define TEST_LED 2` -/
def TEST_LED : Nat := 2

/-- `#define TEST_ADC 34` -/
def TEST_ADC : Nat := 34

/-- `#define TEST_TOUCH 4` -/
def TEST_TOUCH : Nat := 4

/-! Machine integers -/

/-- Number of values of an `unsigned long` on the ESP32 target (32 bits). -/
def ULONG_MOD : Nat := 4294967296

/-- Conversion of an integer value to `unsigned long`: reduction modulo `2^32`. -/
def toULong (x : Int) : Nat := (x % (ULONG_MOD : Int)).toNat

/-! Globals -/

/-- `const long blinkInterval = 5000;` -/
def blinkInterval : Int := 5000

/-- The mutable globals: `unsigned long previousMillis` and `bool ledState`. -/
structure Globals where
  previousMillis : Nat
  ledState : Bool
deriving DecidableEq

/-- Values of the globals at program start: `previousMillis = 0`, `ledState = false`. -/
def Globals.init : Globals := { previousMillis := 0, ledState := false }

/-! Platform calls -/

/-- Pin direction passed to `pinMode`. -/
inductive PinMode where
  | INPUT
  | OUTPUT
deriving DecidableEq

/-- `LOW` digital level. -/
def LOW : Bool := false

/-- `HIGH` digital level. -/
def HIGH : Bool := true

/-- One call into the platform, with its arguments. -/
inductive Call where
  | Serial_begin (baud : Nat)
  | Serial_print (s : String)
  | Serial_println (s : String)
  | Serial_printlnInt (v : Int)
  | pinMode (pin : Nat) (mode : PinMode)
  | digitalWrite (pin : Nat) (level : Bool)
  | millis
  | analogRead (pin : Nat)
  | touchRead (pin : Nat)
  | delay (ms : Nat)
deriving DecidableEq

/-- Values returned by the platform during one pass of `MyLoop`. -/
structure Readings where
  /-- result of `millis()` -/
  currentMillis : Nat
  /-- result of `analogRead(TEST_ADC)`, as stored in `int adcValue` -/
  adcValue : Int
  /-- result of `touchRead(TEST_TOUCH)`, as stored in `int touchValue` -/
  touchValue : Int
deriving DecidableEq

/-! Entry points -/

/-- The function `MySetup`: no global is assigned; six platform calls are made. -/
def MySetup (g : Globals) : Globals × List Call :=
  (g,
   [ Call.Serial_begin 115200,
     Call.Serial_println "\n🔧 ESP32 Universal Test Firmware (OTA Enabled)",
     Call.pinMode TEST_LED PinMode.OUTPUT,
     Call.digitalWrite TEST_LED LOW,
     Call.pinMode TEST_ADC PinMode.INPUT,
     Call.Serial_println "✅ Test Pins Setup Complete" ])

/-- The expression `currentMillis - previousMillis`: a difference of two
`unsigned long` values, itself an `unsigned long`. -/
def elapsed (previousMillis currentMillis : Nat) : Nat :=
  toULong ((currentMillis : Int) - (previousMillis : Int))

/-- The test `currentMillis - previousMillis >= blinkInterval`: `blinkInterval`
(a `long`) is converted to `unsigned long` before the comparison. -/
def blinkDue (previousMillis currentMillis : Nat) : Bool :=
  decide (toULong blinkInterval ≤ elapsed previousMillis currentMillis)

/-- The blink block of `MyLoop` (the `if` statement). -/
def blinkBlock (g : Globals) (currentMillis : Nat) : Globals × List Call :=
  if blinkDue g.previousMillis currentMillis then
    let ledState := !g.ledState
    ({ previousMillis := currentMillis, ledState := ledState },
     [Call.digitalWrite TEST_LED ledState])
  else
    (g, [])

/-- The function `MyLoop`. -/
def MyLoop (g : Globals) (r : Readings) : Globals × List Call :=
  let currentMillis := r.currentMillis
  let blink := blinkBlock g currentMillis
  (blink.1,
   [Call.millis] ++ blink.2 ++
   [ Call.analogRead TEST_ADC,
     Call.Serial_print "📊 ADC (GPIO 34): ",
     Call.Serial_printlnInt r.adcValue,
     Call.touchRead TEST_TOUCH,
     Call.Serial_print "✋ Touch (GPIO 4): ",
     Call.Serial_printlnInt r.touchValue,
     Call.delay 1000 ])

/-- Globals after a sequence of `MyLoop` passes, with all calls made. -/
def runLoops (g : Globals) : List Readings → Globals × List Call
  | [] => (g, [])
  | r :: rs =>
    let one := MyLoop g r
    let rest := runLoops one.1 rs
    (rest.1, one.2 ++ rest.2)

/-- The host runtime: `MySetup` once from the initial globals, then `MyLoop` repeatedly. -/
def program (rs : List Readings) : Globals × List Call :=
  let s := MySetup Globals.init
  let l := runLoops s.1 rs
  (l.1, s.2 ++ l.2)

/-! Effect of the calls on the board -/

/-- Line terminator written by `println`. -/
def CRLF : List Char := ['\r', '\n']

/-- Decimal text of an `int`, as `Serial.println(int)` writes it: a minus sign
for a negative value, then the digits of the magnitude. -/
def decimal : Int → List Char
  | Int.ofNat m => Nat.toDigits 10 m
  | Int.negSucc m => '-' :: Nat.toDigits 10 (m + 1)

/-- Text a call sends to the console (nothing for a call that is not a print). -/
def Call.text : Call → List Char
  | Call.Serial_print s => s.data
  | Call.Serial_println s => s.data ++ CRLF
  | Call.Serial_printlnInt v => decimal v ++ CRLF
  | _ => []

/-- Observable state of the board: console speed, pin directions, output
latches and the text received by the console so far. -/
structure Board where
  baud : Option Nat
  mode : Nat → Option PinMode
  level : Nat → Bool
  console : List Char

/-- Effect of one call on the board. -/
def Board.step (b : Board) (c : Call) : Board :=
  match c with
  | Call.Serial_begin n => { b with baud := some n }
  | Call.pinMode pin m => { b with mode := Function.update b.mode pin (some m) }
  | Call.digitalWrite pin l => { b with level := Function.update b.level pin l }
  | _ => { b with console := b.console ++ c.text }

/-- Effect of a sequence of calls on the board. -/
def Board.run (b : Board) (cs : List Call) : Board :=
  cs.foldl Board.step b

/-- All console text of a sequence of calls. -/
def consoleText : List Call → List Char
  | [] => []
  | c :: cs => c.text ++ consoleText cs

/-- The print calls among a sequence of calls, in order. -/
def printCalls (cs : List Call) : List Call :=
  cs.filter (fun c =>
    match c with
    | Call.Serial_print _ => true
    | Call.Serial_println _ => true
    | Call.Serial_printlnInt _ => true
    | _ => false)

/-- Levels written to the LED pin by a sequence of calls, in order. -/
def ledWrites : List Call → List Bool
  | [] => []
  | Call.digitalWrite pin l :: cs =>
    if pin = TEST_LED then l :: ledWrites cs else ledWrites cs
  | _ :: cs => ledWrites cs

/-- Number of `digitalWrite` calls, to any pin, in a sequence of calls. -/
def pinWrites : List Call → Nat
  | [] => 0
  | Call.digitalWrite _ _ :: cs => pinWrites cs + 1
  | _ :: cs => pinWrites cs

/-! Histories of `MyLoop` passes -/

/-- One pass of `MyLoop`: globals before, values read, globals after. -/
structure Pass where
  before : Globals
  reading : Readings
  after : Globals

/-- A pass toggled the LED when `ledState` after it differs from `ledState` before it. -/
def Pass.toggled (p : Pass) : Bool :=
  p.after.ledState != p.before.ledState

/-- The passes of `MyLoop` made from globals `g` on the given readings. -/
def history (g : Globals) : List Readings → List Pass
  | [] => []
  | r :: rs =>
    { before := g, reading := r, after := (MyLoop g r).1 } :: history (MyLoop g r).1 rs

/-- Timestamp of the most recent toggling pass of a history, `0` when no pass toggled. -/
def lastToggle (h : List Pass) : Nat :=
  h.foldl (fun t p => if p.toggled then p.reading.currentMillis else t) 0

/-! Theorems -/

/-- The unsigned difference is the ordinary one when there is no wrap. -/
theorem elapsed_of_le (p c : Nat) (hpc : p ≤ c) (hc : c < ULONG_MOD) :
    elapsed p c = c - p := by
  unfold elapsed toULong ULONG_MOD at *
  omega

theorem toULong_blinkInterval : toULong blinkInterval = 5000 := by
  decide

theorem blinkDue_iff (p c : Nat) :
    blinkDue p c = true ↔ 5000 ≤ elapsed p c := by
  simp [blinkDue, toULong_blinkInterval]

theorem MyLoop_globals (g : Globals) (r : Readings) :
    (MyLoop g r).1 =
      if blinkDue g.previousMillis r.currentMillis then
        { previousMillis := r.currentMillis, ledState := !g.ledState }
      else g := by
  unfold MyLoop blinkBlock
  by_cases h : blinkDue g.previousMillis r.currentMillis = true <;> simp [h]

theorem MyLoop_calls (g : Globals) (r : Readings) :
    (MyLoop g r).2 =
      [Call.millis] ++
      (if blinkDue g.previousMillis r.currentMillis then
        [Call.digitalWrite TEST_LED (!g.ledState)] else []) ++
      [ Call.analogRead TEST_ADC,
        Call.Serial_print "📊 ADC (GPIO 34): ",
        Call.Serial_printlnInt r.adcValue,
        Call.touchRead TEST_TOUCH,
        Call.Serial_print "✋ Touch (GPIO 4): ",
        Call.Serial_printlnInt r.touchValue,
        Call.delay 1000 ] := by
  unfold MyLoop blinkBlock
  by_cases h : blinkDue g.previousMillis r.currentMillis = true <;> simp [h]

theorem MyLoop_ledState_ne_iff (g : Globals) (r : Readings) :
    (MyLoop g r).1.ledState ≠ g.ledState ↔ blinkDue g.previousMillis r.currentMillis = true := by
  rw [MyLoop_globals]
  by_cases h : blinkDue g.previousMillis r.currentMillis = true <;> simp [h]

/-- C1: when `previousMillis <= current` (both 32-bit values), one pass of
`MyLoop` inverts `ledState` if and only if `current - previousMillis >= 5000`,
and leaves `ledState` as it was when `current - previousMillis < 5000`. -/
theorem MyLoop_toggles_iff_interval_elapsed (g : Globals) (r : Readings)
    (hle : g.previousMillis ≤ r.currentMillis) (hlt : r.currentMillis < ULONG_MOD) :
    ((MyLoop g r).1.ledState = (!g.ledState) ↔ 5000 ≤ r.currentMillis - g.previousMillis) ∧
    (r.currentMillis - g.previousMillis < 5000 → (MyLoop g r).1.ledState = g.ledState) := by
  rw [MyLoop_globals]
  have he := elapsed_of_le g.previousMillis r.currentMillis hle hlt
  have hd := blinkDue_iff g.previousMillis r.currentMillis
  rw [he] at hd
  by_cases h : blinkDue g.previousMillis r.currentMillis = true
  · have h5 := hd.mp h
    simp [h]
    omega
  · have h5 : ¬ 5000 ≤ r.currentMillis - g.previousMillis := fun x => h (hd.mpr x)
    simp [h]
    omega

/-- Witness of C1 at `previousMillis = 5001`, `current = 10200`. -/
theorem MyLoop_toggles_iff_interval_elapsed_witness :
    (5001 ≤ 10200 ∧ 10200 < ULONG_MOD) ∧
    ((MyLoop { previousMillis := 5001, ledState := true }
        { currentMillis := 10200, adcValue := 1873, touchValue := 41 }).1.ledState
        = (!true) ↔ 5000 ≤ 10200 - 5001) ∧
    (10200 - 5001 < 5000 →
      (MyLoop { previousMillis := 5001, ledState := true }
        { currentMillis := 10200, adcValue := 1873, touchValue := 41 }).1.ledState = true) :=
  ⟨⟨by decide, by decide⟩,
   MyLoop_toggles_iff_interval_elapsed { previousMillis := 5001, ledState := true }
    { currentMillis := 10200, adcValue := 1873, touchValue := 41 } (by decide) (by decide)⟩

/-- C2: from `previousMillis = 0`, `ledState = false`, passes at 1000, 3000,
5001 and 10200 ms give no toggle at 1000 and 3000 (globals stay `0`, `false`),
a toggle to `true` at 5001 with `previousMillis = 5001`, and a toggle back to
`false` at 10200 with `previousMillis = 10200`, whatever the sensors read. -/
theorem scenario_four_passes (a1 t1 a2 t2 a3 t3 a4 t4 : Int) :
    history Globals.init
      [ { currentMillis := 1000, adcValue := a1, touchValue := t1 },
        { currentMillis := 3000, adcValue := a2, touchValue := t2 },
        { currentMillis := 5001, adcValue := a3, touchValue := t3 },
        { currentMillis := 10200, adcValue := a4, touchValue := t4 } ]
    = [ { before := { previousMillis := 0, ledState := false },
          reading := { currentMillis := 1000, adcValue := a1, touchValue := t1 },
          after := { previousMillis := 0, ledState := false } },
        { before := { previousMillis := 0, ledState := false },
          reading := { currentMillis := 3000, adcValue := a2, touchValue := t2 },
          after := { previousMillis := 0, ledState := false } },
        { before := { previousMillis := 0, ledState := false },
          reading := { currentMillis := 5001, adcValue := a3, touchValue := t3 },
          after := { previousMillis := 5001, ledState := true } },
        { before := { previousMillis := 5001, ledState := true },
          reading := { currentMillis := 10200, adcValue := a4, touchValue := t4 },
          after := { previousMillis := 10200, ledState := false } } ] ∧
    elapsed 5001 10200 = 5199 := by
  have e1 : blinkDue 0 1000 = false := by decide
  have e2 : blinkDue 0 3000 = false := by decide
  have e3 : blinkDue 0 5001 = true := by decide
  have e4 : blinkDue 5001 10200 = true := by decide
  refine ⟨?_, by decide⟩
  simp [history, MyLoop_globals, Globals.init, e1, e2, e3, e4]

theorem Board_run_append (b : Board) (xs ys : List Call) :
    b.run (xs ++ ys) = (b.run xs).run ys := by
  simp [Board.run, List.foldl_append]

theorem Board_run_MyLoop_level (b : Board) (g : Globals) (r : Readings) :
    (b.run (MyLoop g r).2).level TEST_LED =
      if blinkDue g.previousMillis r.currentMillis then (!g.ledState) else b.level TEST_LED := by
  rw [MyLoop_calls]
  by_cases h : blinkDue g.previousMillis r.currentMillis = true <;>
    simp [h, Board.run, Board.step, Call.text]

/-- C3: whenever a pass of `MyLoop` toggles `ledState`, its only write to the
LED pin (GPIO 2) carries the new value of `ledState`, and the level of the LED
pin after the pass equals the new `ledState`, from any board state. -/
theorem MyLoop_toggle_writes_new_ledState (b : Board) (g : Globals) (r : Readings)
    (htoggle : (MyLoop g r).1.ledState ≠ g.ledState) :
    TEST_LED = 2 ∧
    ledWrites (MyLoop g r).2 = [(MyLoop g r).1.ledState] ∧
    (b.run (MyLoop g r).2).level TEST_LED = (MyLoop g r).1.ledState := by
  have h := (MyLoop_ledState_ne_iff g r).mp htoggle
  refine ⟨rfl, ?_, ?_⟩
  · rw [MyLoop_calls, MyLoop_globals]
    simp [h, ledWrites]
  · rw [Board_run_MyLoop_level, MyLoop_globals]
    simp [h]

/-- Witness of C3: the pass at 5001 ms from the initial globals toggles. -/
theorem MyLoop_toggle_writes_new_ledState_witness :
    (MyLoop Globals.init { currentMillis := 5001, adcValue := 0, touchValue := 0 }).1.ledState
      ≠ Globals.init.ledState ∧
    (TEST_LED = 2 ∧
     ledWrites (MyLoop Globals.init
        { currentMillis := 5001, adcValue := 0, touchValue := 0 }).2 =
      [(MyLoop Globals.init
        { currentMillis := 5001, adcValue := 0, touchValue := 0 }).1.ledState] ∧
     ((Board.mk none (fun _ => none) (fun _ => false) []).run
        (MyLoop Globals.init
          { currentMillis := 5001, adcValue := 0, touchValue := 0 }).2).level TEST_LED =
      (MyLoop Globals.init
        { currentMillis := 5001, adcValue := 0, touchValue := 0 }).1.ledState) :=
  ⟨by decide,
   MyLoop_toggle_writes_new_ledState (Board.mk none (fun _ => none) (fun _ => false) [])
    Globals.init { currentMillis := 5001, adcValue := 0, touchValue := 0 } (by decide)⟩

/-- C4: one pass of `MyLoop` makes at most one pin write and at most one
inversion of `ledState`: either nothing changes and no pin is written, or
`ledState` is inverted once and that value is written once to the LED pin.
With an elapsed time of 10000 ms or more there is still exactly one inversion
and one write; with an elapsed time below 5000 ms there is no pin write. -/
theorem MyLoop_single_step (g : Globals) (r : Readings) :
    (ledWrites (MyLoop g r).2).length ≤ 1 ∧ pinWrites (MyLoop g r).2 ≤ 1 ∧
    (((MyLoop g r).1 = g ∧ pinWrites (MyLoop g r).2 = 0) ∨
     ((MyLoop g r).1 = { previousMillis := r.currentMillis, ledState := !g.ledState } ∧
      ledWrites (MyLoop g r).2 = [!g.ledState] ∧ pinWrites (MyLoop g r).2 = 1)) ∧
    (10000 ≤ elapsed g.previousMillis r.currentMillis →
      (MyLoop g r).1 = { previousMillis := r.currentMillis, ledState := !g.ledState } ∧
      ledWrites (MyLoop g r).2 = [!g.ledState] ∧ pinWrites (MyLoop g r).2 = 1) ∧
    (g.previousMillis + 10000 ≤ r.currentMillis → r.currentMillis < ULONG_MOD →
      (MyLoop g r).1 = { previousMillis := r.currentMillis, ledState := !g.ledState } ∧
      ledWrites (MyLoop g r).2 = [!g.ledState] ∧ pinWrites (MyLoop g r).2 = 1) ∧
    (elapsed g.previousMillis r.currentMillis < 5000 →
      (MyLoop g r).1 = g ∧ pinWrites (MyLoop g r).2 = 0 ∧ ledWrites (MyLoop g r).2 = []) := by
  have hd := blinkDue_iff g.previousMillis r.currentMillis
  by_cases h : blinkDue g.previousMillis r.currentMillis = true
  · have h5 := hd.mp h
    have hG : (MyLoop g r).1 =
        { previousMillis := r.currentMillis, ledState := !g.ledState } := by
      rw [MyLoop_globals, if_pos h]
    have hL : ledWrites (MyLoop g r).2 = [!g.ledState] := by
      rw [MyLoop_calls, if_pos h]; simp [ledWrites]
    have hP : pinWrites (MyLoop g r).2 = 1 := by
      rw [MyLoop_calls, if_pos h]; simp [pinWrites]
    refine ⟨by simp [hL], by simp [hP], Or.inr ⟨hG, hL, hP⟩, fun _ => ⟨hG, hL, hP⟩,
      fun _ _ => ⟨hG, hL, hP⟩, fun h' => ?_⟩
    omega
  · have h5 : ¬ 5000 ≤ elapsed g.previousMillis r.currentMillis := fun x => h (hd.mpr x)
    have hG : (MyLoop g r).1 = g := by
      rw [MyLoop_globals, if_neg h]
    have hL : ledWrites (MyLoop g r).2 = [] := by
      rw [MyLoop_calls, if_neg h]; simp [ledWrites]
    have hP : pinWrites (MyLoop g r).2 = 0 := by
      rw [MyLoop_calls, if_neg h]; simp [pinWrites]
    refine ⟨by simp [hL], by simp [hP], Or.inl ⟨hG, hP⟩, fun h' => ?_, fun h1 h2 => ?_,
      fun _ => ⟨hG, hP, hL⟩⟩
    · omega
    · have he := elapsed_of_le g.previousMillis r.currentMillis (by omega) h2
      omega

/-- Witness of C4: an elapsed time of 23456 ms (four whole intervals) gives one
inversion and one write; an elapsed time of 4999 ms gives no write. -/
theorem MyLoop_single_step_witness :
    (10000 ≤ elapsed 0 23456 ∧
      (MyLoop { previousMillis := 0, ledState := false }
        { currentMillis := 23456, adcValue := 0, touchValue := 0 }).1 =
        { previousMillis := 23456, ledState := true } ∧
      ledWrites (MyLoop { previousMillis := 0, ledState := false }
        { currentMillis := 23456, adcValue := 0, touchValue := 0 }).2 = [true] ∧
      pinWrites (MyLoop { previousMillis := 0, ledState := false }
        { currentMillis := 23456, adcValue := 0, touchValue := 0 }).2 = 1) ∧
    (elapsed 1 5000 < 5000 ∧
      pinWrites (MyLoop { previousMillis := 1, ledState := true }
        { currentMillis := 5000, adcValue := 0, touchValue := 0 }).2 = 0) :=
  ⟨⟨by decide,
    (MyLoop_single_step { previousMillis := 0, ledState := false }
      { currentMillis := 23456, adcValue := 0, touchValue := 0 }).2.2.2.1 (by decide)⟩,
   ⟨by decide,
    ((MyLoop_single_step { previousMillis := 1, ledState := true }
      { currentMillis := 5000, adcValue := 0, touchValue := 0 }).2.2.2.2.2 (by decide)).2.1⟩⟩

theorem MySetup_level_low (b : Board) (g : Globals) :
    (b.run (MySetup g).2).level TEST_LED = false := by
  simp [MySetup, Board.run, Board.step, TEST_LED, TEST_ADC, LOW, Function.update]

/-- C6: from any board state and any globals, after `MySetup` the LED pin
(GPIO 2) is configured as an output and its level is low (`false`). -/
theorem MySetup_led_output_low (b : Board) (g : Globals) :
    TEST_LED = 2 ∧
    (b.run (MySetup g).2).mode TEST_LED = some PinMode.OUTPUT ∧
    (b.run (MySetup g).2).level TEST_LED = false := by
  refine ⟨rfl, ?_, ?_⟩ <;>
    simp [MySetup, Board.run, Board.step, TEST_LED, TEST_ADC, LOW, Function.update]

/-- C7: after `MyLoop`, `previousMillis` equals `current` when
`current - previousMillis >= 5000` (the program's `unsigned long` difference,
which is the ordinary difference when `previousMillis <= current`) and its old
value otherwise; `MySetup` leaves `previousMillis` and `ledState` unchanged. -/
theorem previousMillis_changed_only_when_interval_elapsed (g : Globals) (r : Readings) :
    (MyLoop g r).1.previousMillis =
      (if 5000 ≤ elapsed g.previousMillis r.currentMillis then r.currentMillis
       else g.previousMillis) ∧
    (g.previousMillis ≤ r.currentMillis → r.currentMillis < ULONG_MOD →
      (MyLoop g r).1.previousMillis =
        (if 5000 ≤ r.currentMillis - g.previousMillis then r.currentMillis
         else g.previousMillis)) ∧
    (MySetup g).1 = g := by
  have hd := blinkDue_iff g.previousMillis r.currentMillis
  have key : (MyLoop g r).1.previousMillis =
      (if 5000 ≤ elapsed g.previousMillis r.currentMillis then r.currentMillis
       else g.previousMillis) := by
    rw [MyLoop_globals]
    by_cases h : blinkDue g.previousMillis r.currentMillis = true
    · simp [h, hd.mp h]
    · have h5 : ¬ 5000 ≤ elapsed g.previousMillis r.currentMillis := fun x => h (hd.mpr x)
      simp [h, h5]
  refine ⟨key, fun h1 h2 => ?_, rfl⟩
  rw [key, elapsed_of_le g.previousMillis r.currentMillis h1 h2]

/-- Witness of C7: the interval has elapsed at 10200 ms after a toggle at 5001 ms. -/
theorem previousMillis_changed_only_when_interval_elapsed_witness :
    (5001 ≤ 10200 ∧ 10200 < ULONG_MOD) ∧
    (MyLoop { previousMillis := 5001, ledState := true }
      { currentMillis := 10200, adcValue := 0, touchValue := 0 }).1.previousMillis =
      (if 5000 ≤ 10200 - 5001 then 10200 else 5001) :=
  ⟨⟨by decide, by decide⟩,
   (previousMillis_changed_only_when_interval_elapsed { previousMillis := 5001, ledState := true }
      { currentMillis := 10200, adcValue := 0, touchValue := 0 }).2.1 (by decide) (by decide)⟩

/-- C8: the elapsed-time test of `MyLoop` is an unsigned 32-bit one: a pass
toggles if and only if `(current - previousMillis) mod 2^32 >= 5000`, with
`blinkInterval` converted to the unsigned value 5000.  So across a rollover of
`millis()`, with `current = (previousMillis + d) mod 2^32` and `d < 2^32`, the
pass toggles iff `d >= 5000`: from `previousMillis = 2^32 - 1000` the reading
4000 toggles and the reading 3999 does not. -/
theorem MyLoop_unsigned_elapsed_test (g : Globals) (c d : Nat) (a t : Int)
    (hd : d < ULONG_MOD) :
    toULong blinkInterval = 5000 ∧
    ((MyLoop g { currentMillis := c, adcValue := a, touchValue := t }).1.ledState
        = (!g.ledState) ↔
      (5000 : Int) ≤ ((c : Int) - (g.previousMillis : Int)) % 4294967296) ∧
    ((MyLoop g { currentMillis := (g.previousMillis + d) % 4294967296,
                 adcValue := a, touchValue := t }).1.ledState = (!g.ledState) ↔
      5000 ≤ d) ∧
    (MyLoop { previousMillis := 4294967296 - 1000, ledState := g.ledState }
      { currentMillis := 4000, adcValue := a, touchValue := t }).1.ledState = (!g.ledState) ∧
    (MyLoop { previousMillis := 4294967296 - 1000, ledState := g.ledState }
      { currentMillis := 3999, adcValue := a, touchValue := t }).1.ledState = g.ledState := by
  have e1 : blinkDue (4294967296 - 1000) 4000 = true := by decide
  have e2 : blinkDue (4294967296 - 1000) 3999 = false := by decide
  refine ⟨by decide, ?_, ?_, by simp [MyLoop_globals, e1], by simp [MyLoop_globals, e2]⟩
  · have hb := blinkDue_iff g.previousMillis c
    rw [MyLoop_globals]
    by_cases h : blinkDue g.previousMillis c = true
    · have h5 := hb.mp h
      simp only [h, if_true, true_iff]
      unfold elapsed toULong ULONG_MOD at h5
      omega
    · have h5 : ¬ 5000 ≤ elapsed g.previousMillis c := fun x => h (hb.mpr x)
      simp only [h]
      unfold elapsed toULong ULONG_MOD at h5
      simp
      omega
  · have hb := blinkDue_iff g.previousMillis ((g.previousMillis + d) % 4294967296)
    rw [MyLoop_globals]
    have he : elapsed g.previousMillis ((g.previousMillis + d) % 4294967296) = d := by
      unfold elapsed toULong ULONG_MOD at *
      omega
    rw [he] at hb
    by_cases h : blinkDue g.previousMillis ((g.previousMillis + d) % 4294967296) = true
    · simp [h, hb.mp h]
    · have h5 : ¬ 5000 ≤ d := fun x => h (hb.mpr x)
      simp [h]
      omega

/-- Witness of C8: a true elapsed time of 5000 ms across the rollover. -/
theorem MyLoop_unsigned_elapsed_test_witness :
    5000 < ULONG_MOD ∧
    ((4294966296 + 5000) % 4294967296 = 4000 ∧
     ((MyLoop { previousMillis := 4294966296, ledState := false }
        { currentMillis := (4294966296 + 5000) % 4294967296,
          adcValue := 0, touchValue := 0 }).1.ledState = (!false) ↔ 5000 ≤ 5000)) :=
  ⟨by decide, by decide,
   (MyLoop_unsigned_elapsed_test { previousMillis := 4294966296, ledState := false }
      0 5000 0 0 (by decide)).2.2.1⟩

theorem digitChar_not_line_end (k : Nat) (hk : k < 10) :
    Nat.digitChar k ≠ '\n' ∧ Nat.digitChar k ≠ '\r' := by
  interval_cases k <;> decide

theorem toDigitsCore_no_line_end (fuel : Nat) :
    ∀ (n : Nat) (ds : List Char), (∀ c ∈ ds, c ≠ '\n' ∧ c ≠ '\r') →
      ∀ c ∈ Nat.toDigitsCore 10 fuel n ds, c ≠ '\n' ∧ c ≠ '\r' := by
  induction fuel with
  | zero => intro n ds h c hc; exact h c (by simpa [Nat.toDigitsCore] using hc)
  | succ f ih =>
    intro n ds h c hc
    have hds : ∀ c ∈ Nat.digitChar (n % 10) :: ds, c ≠ '\n' ∧ c ≠ '\r' := by
      intro c hc
      rcases List.mem_cons.mp hc with rfl | hc
      · exact digitChar_not_line_end (n % 10) (Nat.mod_lt n (by decide))
      · exact h c hc
    unfold Nat.toDigitsCore at hc
    by_cases h0 : n / 10 = 0
    · simp only [h0, if_true] at hc
      exact hds c hc
    · simp only [h0, if_false] at hc
      exact ih (n / 10) _ hds c hc

theorem decimal_no_line_end (v : Int) : ∀ c ∈ decimal v, c ≠ '\n' ∧ c ≠ '\r' := by
  cases v with
  | ofNat m =>
    intro c hc
    exact toDigitsCore_no_line_end (m + 1) m [] (by simp) c hc
  | negSucc m =>
    intro c hc
    rcases List.mem_cons.mp hc with rfl | hc
    · decide
    · exact toDigitsCore_no_line_end (m + 1 + 1) (m + 1) [] (by simp) c hc

theorem Board_step_console (b : Board) (c : Call) :
    (b.step c).console = b.console ++ c.text := by
  cases c <;> simp [Board.step, Call.text]

theorem Board_run_console (cs : List Call) :
    ∀ b : Board, (b.run cs).console = b.console ++ consoleText cs := by
  induction cs with
  | nil => intro b; simp [Board.run, consoleText]
  | cons c cs ih =>
    intro b
    have h := ih (b.step c)
    simp only [Board.run, List.foldl_cons] at h ⊢
    rw [h, Board_step_console, consoleText, List.append_assoc]

theorem MyLoop_consoleText (g : Globals) (r : Readings) :
    consoleText (MyLoop g r).2 =
      ("📊 ADC (GPIO 34): ".data ++ decimal r.adcValue) ++ CRLF ++
      (("✋ Touch (GPIO 4): ".data ++ decimal r.touchValue) ++ CRLF) := by
  rw [MyLoop_calls]
  by_cases h : blinkDue g.previousMillis r.currentMillis = true <;>
    simp [h, consoleText, Call.text]

theorem MyLoop_printCalls (g : Globals) (r : Readings) :
    printCalls (MyLoop g r).2 =
      [ Call.Serial_print "📊 ADC (GPIO 34): ", Call.Serial_printlnInt r.adcValue,
        Call.Serial_print "✋ Touch (GPIO 4): ", Call.Serial_printlnInt r.touchValue ] := by
  rw [MyLoop_calls]
  by_cases h : blinkDue g.previousMillis r.currentMillis = true <;>
    simp [h, printCalls]

/-- C5: one pass of `MyLoop` appends exactly two lines to the console, in this
order: the label ending in "ADC (GPIO 34): " followed by the decimal text of
the ADC reading, then the label ending in "Touch (GPIO 4): " followed by the
decimal text of the touch reading, each closed by one line terminator.  The
text does not depend on the globals or the timestamp (so not on whether the
LED toggled), and the readings are printed as read. -/
theorem MyLoop_prints_two_lines (b : Board) (g : Globals) (r : Readings) :
    printCalls (MyLoop g r).2 =
      [ Call.Serial_print "📊 ADC (GPIO 34): ", Call.Serial_printlnInt r.adcValue,
        Call.Serial_print "✋ Touch (GPIO 4): ", Call.Serial_printlnInt r.touchValue ] ∧
    (b.run (MyLoop g r).2).console =
      b.console ++
        (("📊 ADC (GPIO 34): ".data ++ decimal r.adcValue) ++ ['\r', '\n'] ++
         (("✋ Touch (GPIO 4): ".data ++ decimal r.touchValue) ++ ['\r', '\n'])) ∧
    "ADC (GPIO 34): ".data <:+ "📊 ADC (GPIO 34): ".data ∧
    "Touch (GPIO 4): ".data <:+ "✋ Touch (GPIO 4): ".data ∧
    (∀ c ∈ "📊 ADC (GPIO 34): ".data ++ decimal r.adcValue, c ≠ '\n' ∧ c ≠ '\r') ∧
    (∀ c ∈ "✋ Touch (GPIO 4): ".data ++ decimal r.touchValue, c ≠ '\n' ∧ c ≠ '\r') ∧
    (consoleText (MyLoop g r).2).count '\n' = 2 ∧
    (∀ (g' : Globals) (c' : Nat),
      consoleText (MyLoop g' { r with currentMillis := c' }).2 = consoleText (MyLoop g r).2) := by
  have hA : ∀ c ∈ "📊 ADC (GPIO 34): ".data ++ decimal r.adcValue, c ≠ '\n' ∧ c ≠ '\r' := by
    intro c hc
    have hl : ∀ c ∈ "📊 ADC (GPIO 34): ".data, c ≠ '\n' ∧ c ≠ '\r' := by decide
    rcases List.mem_append.mp hc with hc | hc
    · exact hl c hc
    · exact decimal_no_line_end _ c hc
  have hT : ∀ c ∈ "✋ Touch (GPIO 4): ".data ++ decimal r.touchValue, c ≠ '\n' ∧ c ≠ '\r' := by
    intro c hc
    have hl : ∀ c ∈ "✋ Touch (GPIO 4): ".data, c ≠ '\n' ∧ c ≠ '\r' := by decide
    rcases List.mem_append.mp hc with hc | hc
    · exact hl c hc
    · exact decimal_no_line_end _ c hc
  have cA : ("📊 ADC (GPIO 34): ".data ++ decimal r.adcValue).count '\n' = 0 :=
    List.count_eq_zero.mpr (fun hm => (hA _ hm).1 rfl)
  have cT : ("✋ Touch (GPIO 4): ".data ++ decimal r.touchValue).count '\n' = 0 :=
    List.count_eq_zero.mpr (fun hm => (hT _ hm).1 rfl)
  refine ⟨MyLoop_printCalls g r, ?_, ?_, ?_, hA, hT, ?_, ?_⟩
  · rw [Board_run_console, MyLoop_consoleText]; rfl
  · exact ⟨['📊', ' '], by decide⟩
  · exact ⟨['✋', ' '], by decide⟩
  · have hE : List.count '\n' CRLF = 1 := by decide
    rw [MyLoop_consoleText]
    simp only [List.count_append] at cA cT ⊢
    omega
  · intro g' c'
    rw [MyLoop_consoleText, MyLoop_consoleText]

theorem runLoops_level_invariant (rs : List Readings) :
    ∀ (g : Globals) (b : Board), b.level TEST_LED = g.ledState →
      (b.run (runLoops g rs).2).level TEST_LED = (runLoops g rs).1.ledState := by
  induction rs with
  | nil => intro g b h; simpa [runLoops, Board.run] using h
  | cons r rs ih =>
    intro g b h
    simp only [runLoops]
    rw [Board_run_append]
    apply ih
    rw [Board_run_MyLoop_level, MyLoop_globals]
    by_cases hb : blinkDue g.previousMillis r.currentMillis = true
    · simp [hb]
    · simp [hb, h]

/-- C9: after `MySetup` from the initial globals followed by any finite number
of `MyLoop` passes (none included), with any timestamps and sensor readings and
from any board state, the level of the LED pin equals `ledState`. -/
theorem led_level_equals_ledState (b : Board) (rs : List Readings) :
    (b.run (program rs).2).level TEST_LED = (program rs).1.ledState := by
  simp only [program]
  rw [Board_run_append]
  apply runLoops_level_invariant
  exact (MySetup_level_low b Globals.init)

theorem history_after (rs : List Readings) :
    ∀ (g : Globals), ∀ p ∈ history g rs, p.after = (MyLoop p.before p.reading).1 := by
  induction rs with
  | nil => intro g p hp; simp [history] at hp
  | cons r rs ih =>
    intro g p hp
    simp only [history, List.mem_cons] at hp
    rcases hp with rfl | hp
    · rfl
    · exact ih _ p hp

theorem toggled_iff_blinkDue (p : Pass) (hp : p.after = (MyLoop p.before p.reading).1) :
    p.toggled = true ↔ blinkDue p.before.previousMillis p.reading.currentMillis = true := by
  unfold Pass.toggled
  rw [hp, ← MyLoop_ledState_ne_iff]
  simp

theorem MyLoop_previousMillis_cases (g : Globals) (r : Readings) :
    (MyLoop g r).1.previousMillis = g.previousMillis ∨
    (MyLoop g r).1.previousMillis = r.currentMillis := by
  rw [MyLoop_globals]
  by_cases h : blinkDue g.previousMillis r.currentMillis = true <;> simp [h]

theorem history_before_bounds (rs : List Readings) :
    ∀ (g : Globals), List.Pairwise (fun x y => x ≤ y) (rs.map Readings.currentMillis) →
      (∀ r ∈ rs, g.previousMillis ≤ r.currentMillis) →
      ∀ p ∈ history g rs, g.previousMillis ≤ p.before.previousMillis ∧
        p.before.previousMillis ≤ p.reading.currentMillis := by
  induction rs with
  | nil => intro g _ _ p hp; simp [history] at hp
  | cons r rs ih =>
    intro g hs hg p hp
    simp only [List.map_cons, List.pairwise_cons] at hs
    simp only [history, List.mem_cons] at hp
    have hgr : g.previousMillis ≤ r.currentMillis := hg r (List.mem_cons_self _ _)
    rcases hp with rfl | hp
    · exact ⟨le_refl _, hgr⟩
    · have hr : ∀ x ∈ rs, r.currentMillis ≤ x.currentMillis := fun x hx =>
        hs.1 _ (List.mem_map_of_mem _ hx)
      have hg' : ∀ x ∈ rs, (MyLoop g r).1.previousMillis ≤ x.currentMillis := by
        intro x hx
        rcases MyLoop_previousMillis_cases g r with h | h
        · rw [h]; exact hg x (List.mem_cons_of_mem _ hx)
        · rw [h]; exact hr x hx
      have := ih _ hs.2 hg' p hp
      refine ⟨?_, this.2⟩
      rcases MyLoop_previousMillis_cases g r with h | h
      · rw [← h]; exact this.1
      · exact le_trans (h ▸ hgr) this.1

theorem history_reading_mem (rs : List Readings) :
    ∀ (g : Globals), ∀ p ∈ history g rs, p.reading ∈ rs := by
  induction rs with
  | nil => intro g p hp; simp [history] at hp
  | cons r rs ih =>
    intro g p hp
    simp only [history, List.mem_cons] at hp
    rcases hp with rfl | hp
    · exact List.mem_cons_self _ _
    · exact List.mem_cons_of_mem _ (ih _ p hp)

theorem history_toggled_ge (rs : List Readings) (g : Globals)
    (hs : List.Pairwise (fun x y => x ≤ y) (rs.map Readings.currentMillis))
    (hg : ∀ r ∈ rs, g.previousMillis ≤ r.currentMillis)
    (hlt : ∀ r ∈ rs, r.currentMillis < ULONG_MOD) :
    ∀ p ∈ history g rs, p.toggled = true →
      g.previousMillis + 5000 ≤ p.reading.currentMillis := by
  intro p hp ht
  have hb := history_before_bounds rs g hs hg p hp
  have hd := (toggled_iff_blinkDue p (history_after rs g p hp)).mp ht
  have h5 := (blinkDue_iff _ _).mp hd
  rw [elapsed_of_le _ _ hb.2 (hlt _ (history_reading_mem rs g p hp))] at h5
  omega

theorem history_toggles_spaced (rs : List Readings) :
    ∀ (g : Globals), List.Pairwise (fun x y => x ≤ y) (rs.map Readings.currentMillis) →
      (∀ r ∈ rs, g.previousMillis ≤ r.currentMillis) →
      (∀ r ∈ rs, r.currentMillis < ULONG_MOD) →
      List.Pairwise (fun p q : Pass => p.toggled = true → q.toggled = true →
        p.reading.currentMillis + 5000 ≤ q.reading.currentMillis) (history g rs) := by
  induction rs with
  | nil => intro g _ _ _; simp [history]
  | cons r rs ih =>
    intro g hs hg hlt
    have hs' := hs
    simp only [List.map_cons, List.pairwise_cons] at hs'
    have hr : ∀ x ∈ rs, r.currentMillis ≤ x.currentMillis := fun x hx =>
      hs'.1 _ (List.mem_map_of_mem _ hx)
    have hg' : ∀ x ∈ rs, (MyLoop g r).1.previousMillis ≤ x.currentMillis := by
      intro x hx
      rcases MyLoop_previousMillis_cases g r with h | h
      · rw [h]; exact hg x (List.mem_cons_of_mem _ hx)
      · rw [h]; exact hr x hx
    have hlt' : ∀ x ∈ rs, x.currentMillis < ULONG_MOD := fun x hx =>
      hlt x (List.mem_cons_of_mem _ hx)
    simp only [history, List.pairwise_cons]
    refine ⟨?_, ih _ hs'.2 hg' hlt'⟩
    intro q hq ht hqt
    have hd := (MyLoop_ledState_ne_iff g r).mp (by simpa [Pass.toggled] using ht)
    have hprev : (MyLoop g r).1.previousMillis = r.currentMillis := by
      rw [MyLoop_globals, if_pos hd]
    have := history_toggled_ge rs _ hs'.2 hg' hlt' q hq hqt
    rw [hprev] at this
    exact this

theorem runLoops_previousMillis_foldl (rs : List Readings) :
    ∀ (g : Globals),
      (runLoops g rs).1.previousMillis =
        (history g rs).foldl
          (fun t p => if p.toggled then p.reading.currentMillis else t) g.previousMillis := by
  induction rs with
  | nil => intro g; simp [runLoops, history]
  | cons r rs ih =>
    intro g
    simp only [runLoops, history, List.foldl_cons]
    rw [ih]
    congr 1
    have ht := MyLoop_ledState_ne_iff g r
    by_cases hd : blinkDue g.previousMillis r.currentMillis = true
    · have : (MyLoop g r).1.ledState ≠ g.ledState := ht.mpr hd
      rw [MyLoop_globals, if_pos hd] at this ⊢
      simp [Pass.toggled]
    · rw [MyLoop_globals, if_neg hd]
      simp [Pass.toggled]

/-- C10: for `MyLoop` passes from the initial globals whose `millis()` readings
are non-decreasing and below `2^32`: `previousMillis <= current` holds at every
pass; after any number of passes `previousMillis` is the timestamp of the most
recent toggling pass (`0` if none toggled); the timestamps of two distinct
toggling passes differ by at least 5000; and no pass with a reading below 5000
toggles. -/
theorem no_rollover_toggle_spacing (rs : List Readings)
    (hmono : List.Pairwise (fun x y => x ≤ y) (rs.map Readings.currentMillis))
    (hlt : ∀ r ∈ rs, r.currentMillis < ULONG_MOD) :
    (∀ p ∈ history Globals.init rs, p.before.previousMillis ≤ p.reading.currentMillis) ∧
    (∀ k : Nat, (runLoops Globals.init (rs.take k)).1.previousMillis =
      lastToggle (history Globals.init (rs.take k))) ∧
    List.Pairwise (fun p q : Pass => p.toggled = true → q.toggled = true →
      p.reading.currentMillis + 5000 ≤ q.reading.currentMillis) (history Globals.init rs) ∧
    (∀ p ∈ history Globals.init rs, p.reading.currentMillis < 5000 → p.toggled = false) := by
  have h0 : ∀ r ∈ rs, Globals.init.previousMillis ≤ r.currentMillis := fun r _ => Nat.zero_le _
  refine ⟨fun p hp => (history_before_bounds rs _ hmono h0 p hp).2, fun k => ?_,
    history_toggles_spaced rs _ hmono h0 hlt, fun p hp h5 => ?_⟩
  · rw [runLoops_previousMillis_foldl]; rfl
  · cases ht : p.toggled with
    | false => rfl
    | true =>
      have := history_toggled_ge rs _ hmono h0 hlt p hp ht
      omega

/-- Witness of C10: the readings 1000, 3000, 5001, 10200 are non-decreasing and below `2^32`. -/
theorem no_rollover_toggle_spacing_witness :
    (List.Pairwise (fun x y => x ≤ y)
        (([ { currentMillis := 1000, adcValue := 0, touchValue := 0 },
            { currentMillis := 3000, adcValue := 0, touchValue := 0 },
            { currentMillis := 5001, adcValue := 0, touchValue := 0 },
            { currentMillis := 10200, adcValue := 0, touchValue := 0 } ] : List Readings).map
          Readings.currentMillis) ∧
     ∀ r ∈ ([ { currentMillis := 1000, adcValue := 0, touchValue := 0 },
            { currentMillis := 3000, adcValue := 0, touchValue := 0 },
            { currentMillis := 5001, adcValue := 0, touchValue := 0 },
            { currentMillis := 10200, adcValue := 0, touchValue := 0 } ] : List Readings),
        r.currentMillis < ULONG_MOD) ∧
    (runLoops Globals.init
        (([ { currentMillis := 1000, adcValue := 0, touchValue := 0 },
            { currentMillis := 3000, adcValue := 0, touchValue := 0 },
            { currentMillis := 5001, adcValue := 0, touchValue := 0 },
            { currentMillis := 10200, adcValue := 0, touchValue := 0 } ] : List Readings).take
          3)).1.previousMillis =
      lastToggle (history Globals.init
        (([ { currentMillis := 1000, adcValue := 0, touchValue := 0 },
            { currentMillis := 3000, adcValue := 0, touchValue := 0 },
            { currentMillis := 5001, adcValue := 0, touchValue := 0 },
            { currentMillis := 10200, adcValue := 0, touchValue := 0 } ] : List Readings).take
          3)) :=
  ⟨⟨by decide, by decide⟩,
   (no_rollover_toggle_spacing
      [ { currentMillis := 1000, adcValue := 0, touchValue := 0 },
        { currentMillis := 3000, adcValue := 0, touchValue := 0 },
        { currentMillis := 5001, adcValue := 0, touchValue := 0 },
        { currentMillis := 10200, adcValue := 0, touchValue := 0 } ]
      (by decide) (by decide)).2.1 3⟩

end MyMain
